import Mathlib

/-!
# Verification of the velox split-based table-scan protocol

A shallow embedding of the TPC-H connector (`TpchConnector.h`) and the hive
split descriptor (`HiveConnectorSplit.h`), together with proofs of the
documented properties of the split/data-source protocol.

Machine integers of the source (`uint64_t`, `size_t`) are modelled as `Nat`
(the operations used — comparisons, `min`, addition of in-range counters —
never overflow on the claimed inputs), `int32_t`/`int64_t` as `Int`, and the
`double` scale factor as `ℚ` (the only operation performed on it is an exact
comparison against zero and a multiplication by an integral base count).
Fallible constructors and unsupported operations return `Except VeloxError`.
-/

namespace Velox

/-- Error taxonomy of the design: `ValidationError` (failed construction-time
check), `NotSupportedError` (capability absent, `VELOX_NYI`),
`TypeMismatchError` (handle of a different connector kind), `LookupError`
(unregistered factory name). -/
inductive VeloxError where
  | validation (msg : String)
  | notSupported (msg : String)
  | typeMismatch (msg : String)
  | lookupFailure (msg : String)
deriving DecidableEq, Repr

/-- The TPC-H logical tables, mirroring the `velox::tpch::Table` enum. -/
inductive TpchTable where
  | customer
  | lineitem
  | nation
  | orders
  | part
  | partsupp
  | region
  | supplier
deriving DecidableEq, Repr

/-- Numeric code of a table, used by the modelled row generator. -/
def TpchTable.code : TpchTable → Nat
  | .customer => 0
  | .lineitem => 1
  | .nation => 2
  | .orders => 3
  | .part => 4
  | .partsupp => 5
  | .region => 6
  | .supplier => 7

/-- Modelled from the spec: baseline row count of a TPC-H table at scale
factor 1, used by the external row generator (`velox/tpch/gen/TpchGen.h`,
an out-of-scope collaborator consumed through its contract). -/
def baseRowCount : TpchTable → Nat
  | .customer => 150000
  | .lineitem => 6000000
  | .nation => 25
  | .orders => 1500000
  | .part => 200000
  | .partsupp => 800000
  | .region => 5
  | .supplier => 10000

/-- Modelled from the spec: `totalRowCount(T, s)`, the total row count of a
synthetic table — a pure function of the table and the scale factor, the
scale factor acting as a multiplier on the baseline row count
(glossary: "multiplier controlling synthetic table size relative to a
baseline row count"). -/
def totalRowCount (t : TpchTable) (s : ℚ) : Nat :=
  ((baseRowCount t : Int) * s.num / (s.den : Int)).toNat

/-- A generated row of a synthetic table: its row index together with a
payload derived from it. -/
structure TpchRow where
  rowIndex : Nat
  payload : Nat
deriving DecidableEq, Repr

/-- Modelled from the spec: the external deterministic row generator — given
table, scale factor and a row index it always yields the same row
("generating row index `i` must always yield the same row"). -/
def genRow (t : TpchTable) (s : ℚ) (i : Nat) : TpchRow :=
  ⟨i, (t.code + 1) * 1000003 + i * 31 + (totalRowCount t s % 97)⟩

/-- Modelled from the spec: in-memory byte size charged for one generated row
(the byte counter is "not required to be exact for formats without byte-level
accounting"; a fixed-width row model is used). -/
def rowBytes (_ : TpchRow) : Nat := 16

/-- The rows of the row-index range `[lo, hi)` of table `t` at scale `s`,
in index order. -/
def scanRange (t : TpchTable) (s : ℚ) (lo hi : Nat) : List TpchRow :=
  (List.range' lo (hi - lo)).map (genRow t s)

/-- TPC-H column handle: only the column name (`TpchColumnHandle`). -/
structure TpchColumnHandle where
  name : String
deriving DecidableEq, Repr

/-- TPC-H table handle state: connector id, target table, scale factor
(`TpchTableHandle`). -/
structure TpchTableHandle where
  connectorId : String
  table : TpchTable
  scaleFactor : ℚ
deriving DecidableEq, Repr

/-- The `TpchTableHandle` constructor:
`VELOX_CHECK_GE(scaleFactor, 0, "Tpch scale factor must be non-negative")`,
then the handle stores the table and the scale factor. In C++ the check
throws; here construction returns `Except`. -/
def mkTpchTableHandle (connectorId : String) (table : TpchTable)
    (scaleFactor : ℚ) : Except VeloxError TpchTableHandle :=
  if 0 ≤ scaleFactor then
    .ok ⟨connectorId, table, scaleFactor⟩
  else
    .error (.validation "Tpch scale factor must be non-negative")

/-- A connector table handle: either a TPC-H handle or a handle belonging to
some other connector kind (opaque beyond its connector id). The C++ side
expresses this as the open class `ConnectorTableHandle`, down-cast with
`dynamic_pointer_cast`. -/
inductive ConnectorTableHandle where
  | tpch (h : TpchTableHandle)
  | otherKind (connectorId : String)
deriving DecidableEq, Repr

/-- Modelled from the spec: a TPC-H connector split carries the row sub-range
`[splitOffset, splitEnd)` to generate ("A split carries
`[splitOffset, splitEnd)`"; `TpchConnectorSplit.h` is not part of this
source drop). -/
structure TpchConnectorSplit where
  connectorId : String
  splitOffset : Nat
  splitEnd : Nat
deriving DecidableEq, Repr

/-- State of a `TpchDataSource`, after the private fields of the class:
table, scale factor, the row count computed once at construction, the
current split with its clamped cursor range `[splitOffset, splitEnd)`
(`splitOffset` advances as rows are produced), the completed counters, and
the borrowed memory pool (identified by a number here). -/
structure TpchDataSource where
  tpchTable : TpchTable
  scaleFactor : ℚ
  tpchTableRowCount : Nat
  currentSplit : Option TpchConnectorSplit
  splitOffset : Nat
  splitEnd : Nat
  completedRows : Nat
  completedBytes : Nat
  pool : Nat
deriving DecidableEq, Repr

/-- Modelled from the spec: the `TpchDataSource` constructor (its body lives
in `TpchConnector.cpp`, not in this source drop). It validates that the
table handle is a TPC-H handle (a different connector kind is a type
mismatch), stores the table and scale factor, computes the total row count
once, and binds the borrowed memory pool. -/
def mkTpchDataSource (tableHandle : ConnectorTableHandle) (pool : Nat) :
    Except VeloxError TpchDataSource :=
  match tableHandle with
  | .tpch h =>
      .ok
        { tpchTable := h.table
          scaleFactor := h.scaleFactor
          tpchTableRowCount := totalRowCount h.table h.scaleFactor
          currentSplit := none
          splitOffset := 0
          splitEnd := 0
          completedRows := 0
          completedBytes := 0
          pool := pool }
  | .otherKind _ =>
      .error (.typeMismatch "TableHandle must be an instance of TpchTableHandle")

/-- Modelled from the spec: `addSplit` stores the split and resets the range
cursor, clamping the split's row range to `[0, totalRowCount)` ("the data
source clamps this to `[0, totalRowCount)`"; clamping "is not an error — it
is silently normalized to the valid range"). The completed counters are
cumulative progress metrics and stay monotone. -/
def TpchDataSource.addSplit (ds : TpchDataSource) (split : TpchConnectorSplit) :
    TpchDataSource :=
  { ds with
      currentSplit := some split
      splitOffset := min split.splitOffset ds.tpchTableRowCount
      splitEnd := min split.splitEnd ds.tpchTableRowCount }

/-- Modelled from the spec: `next(size)`. While the cursor range is
non-empty it requests exactly `min(size, splitEnd - cursor)` rows from the
generator for `[cursor, cursor + k)`, advances the cursor and updates
`completedRows`/`completedBytes`; once the range is consumed it returns an
empty result (`none`) signaling that the next split is needed. -/
def TpchDataSource.next (ds : TpchDataSource) (size : Nat) :
    Option (List TpchRow) × TpchDataSource :=
  if ds.splitOffset < ds.splitEnd then
    let k := min size (ds.splitEnd - ds.splitOffset)
    let rows := (List.range' ds.splitOffset k).map (genRow ds.tpchTable ds.scaleFactor)
    (some rows,
      { ds with
          splitOffset := ds.splitOffset + k
          completedRows := ds.completedRows + k
          completedBytes := ds.completedBytes + (rows.map rowBytes).sum })
  else
    (none, ds)

/-- A pushed-down filter (opaque to the TPC-H connector, which rejects it). -/
structure VeloxFilter where
  tag : String
deriving DecidableEq, Repr

/-- `TpchDataSource::addDynamicFilter`:
`VELOX_NYI("Dynamic filters not supported by TpchConnector.")` for every
channel and filter. -/
def TpchDataSource.addDynamicFilter (_ds : TpchDataSource)
    (_outputChannel : Nat) (_filter : VeloxFilter) :
    Except VeloxError TpchDataSource :=
  .error (.notSupported "Dynamic filters not supported by TpchConnector.")

/-- The allocation context handed to `createDataSource`
(`ConnectorQueryCtx`): its memory pool, borrowed by the data source. -/
structure ConnectorQueryCtx where
  memoryPool : Nat
deriving DecidableEq, Repr

/-- The TPC-H connector instance: only its id (`TpchConnector`). -/
structure TpchConnector where
  id : String
deriving DecidableEq, Repr

/-- `TpchConnector::createDataSource`: builds a `TpchDataSource` over the
supplied handle, bound to the context's memory pool; the handle-kind
validation happens in the data-source constructor. -/
def TpchConnector.createDataSource (_c : TpchConnector)
    (_outputType : List String) (tableHandle : ConnectorTableHandle)
    (_columnHandles : List (String × TpchColumnHandle))
    (ctx : ConnectorQueryCtx) : Except VeloxError TpchDataSource :=
  mkTpchDataSource tableHandle ctx.memoryPool

/-- Commit strategies of the write path (`CommitStrategy`). -/
inductive CommitStrategy where
  | noCommit
  | taskCommit
deriving DecidableEq, Repr

/-- `TpchConnector::createDataSink`:
`VELOX_NYI("TpchConnector does not support data sink.")` for every input —
no sink object is ever produced. -/
def TpchConnector.createDataSink (_c : TpchConnector)
    (_inputType : List String) (_insertTableHandle : String)
    (_ctx : ConnectorQueryCtx) (_commitStrategy : CommitStrategy) :
    Except VeloxError Unit :=
  .error (.notSupported "TpchConnector does not support data sink.")

/-- Repeatedly pull batches of size `n` from a data source until it signals
that the next split is needed (at most `fuel` pulls), concatenating the
produced batches. This models an engine draining one split with a fixed
batch size. -/
def drain (n : Nat) : Nat → TpchDataSource → List TpchRow
  | 0, _ => []
  | fuel + 1, ds =>
    match (ds.next n).1 with
    | none => []
    | some rows => rows ++ drain n fuel (ds.next n).2

/-- All rows an engine obtains by assigning split `sp` to the data source
`ds0` and draining it with batch size `n`. -/
def splitScanRows (ds0 : TpchDataSource) (n : Nat) (sp : TpchConnectorSplit) :
    List TpchRow :=
  let ds := ds0.addSplit sp
  drain n (ds.splitEnd - ds.splitOffset) ds

/-- Hive column handle, reduced to the column name (the design's
`ColumnHandle` model; `TableHandle.h` is not part of this source drop). -/
structure HiveColumnHandle where
  name : String
deriving DecidableEq, Repr

/-- `HiveBucketConversion`: new (`tableBucketCount`) and old
(`partitionBucketCount`) bucket counts plus the bucket columns. -/
structure HiveBucketConversion where
  tableBucketCount : Int
  partitionBucketCount : Int
  bucketColumnHandles : List HiveColumnHandle
deriving DecidableEq, Repr

/-- `RowIdProperties`. -/
structure RowIdProperties where
  metadataVersion : Int
  partitionId : Int
  tableGuid : String
deriving DecidableEq, Repr

/-- File properties attached to a split (`FileProperties.h` is not part of
this source drop; per the design these are "file properties like file size
that are used while opening the file handle"). -/
structure FileProperties where
  fileSize : Option Nat
  modificationTime : Option Nat
deriving DecidableEq, Repr

/-- File formats of `dwio::common::FileFormat` (external enum, consumed
through its contract). -/
inductive FileFormat where
  | unknownFormat
  | dwrf
  | text
  | json
  | parquet
  | nimble
  | orc
deriving DecidableEq, Repr

/-- `HiveConnectorSplit`: the base `ConnectorSplit` fields (`connectorId`,
`splitWeight`) followed by the hive-specific fields, in declaration order of
the header. Unordered maps are modelled as association lists,
`shared_ptr<std::string>` as `Option String`. -/
structure HiveConnectorSplit where
  connectorId : String
  splitWeight : Int
  filePath : String
  fileFormat : FileFormat
  start : Nat
  length : Nat
  partitionKeys : List (String × Option String)
  tableBucketNumber : Option Int
  bucketConversion : Option HiveBucketConversion
  customSplitInfo : List (String × String)
  extraFileInfo : Option String
  serdeParameters : List (String × String)
  infoColumns : List (String × String)
  properties : Option FileProperties
  rowIdProperties : Option RowIdProperties
deriving DecidableEq, Repr

/-- The `HiveConnectorSplit` constructor, with its parameters in source
order. `bucketConversion` is not a parameter: it is a member that
default-initializes to `nullopt` and is only ever populated after
construction. -/
def mkHiveConnectorSplit (connectorId : String) (filePath : String)
    (fileFormat : FileFormat) (start : Nat) (length : Nat)
    (partitionKeys : List (String × Option String))
    (tableBucketNumber : Option Int)
    (customSplitInfo : List (String × String))
    (extraFileInfo : Option String)
    (serdeParameters : List (String × String))
    (splitWeight : Int)
    (infoColumns : List (String × String))
    (properties : Option FileProperties)
    (rowIdProperties : Option RowIdProperties) : HiveConnectorSplit :=
  { connectorId := connectorId
    splitWeight := splitWeight
    filePath := filePath
    fileFormat := fileFormat
    start := start
    length := length
    partitionKeys := partitionKeys
    tableBucketNumber := tableBucketNumber
    bucketConversion := none
    customSplitInfo := customSplitInfo
    extraFileInfo := extraFileInfo
    serdeParameters := serdeParameters
    infoColumns := infoColumns
    properties := properties
    rowIdProperties := rowIdProperties }

/-- The `HiveConnectorSplit` constructor invoked with only the three
mandatory arguments, all trailing defaulted parameters taking their C++
default values (`_start = 0`,
`_length = std::numeric_limits<uint64_t>::max()`, empty maps, no bucket
number, null extra info, `_splitWeight = 0`, no properties). -/
def mkHiveConnectorSplitDefaults (connectorId : String) (filePath : String)
    (fileFormat : FileFormat) : HiveConnectorSplit :=
  mkHiveConnectorSplit connectorId filePath fileFormat 0 (2 ^ 64 - 1) [] none
    [] none [] 0 [] none none

/-- The documented invariant on populated bucket conversions:
`tableBucketCount ≥ partitionBucketCount > 0`, `tableBucketCount` an
integer multiple of `partitionBucketCount`, and the split's
`tableBucketNumber` in `[0, tableBucketCount)`. -/
def bucketConversionInvariant (s : HiveConnectorSplit) : Prop :=
  ∀ conv, s.bucketConversion = some conv →
    (0 < conv.partitionBucketCount ∧
      conv.partitionBucketCount ≤ conv.tableBucketCount ∧
      conv.partitionBucketCount ∣ conv.tableBucketCount) ∧
    ∃ b, s.tableBucketNumber = some b ∧ 0 ≤ b ∧ b < conv.tableBucketCount

/-- A representable split whose populated bucket conversion violates the
documented invariant: the struct and constructor perform no validation, so
nothing prevents building it. -/
def hiveBadBucketSplit : HiveConnectorSplit :=
  { mkHiveConnectorSplitDefaults "test-hive" "/data/file0" FileFormat.dwrf with
      bucketConversion := some ⟨1, 2, []⟩
      tableBucketNumber := some 5 }

/-- A row read back from a file-backed split: a mapping from column names to
(integer-modelled) values. -/
structure HiveRow where
  cells : List (String × Int)
deriving DecidableEq, Repr

/-- Value of a named column in a row (missing columns read as 0). -/
def HiveRow.cellValue (r : HiveRow) (name : String) : Int :=
  (r.cells.lookup name).getD 0

/-- Modelled from the spec: the external hash over one bucket-column value. -/
def hashIntValue (v : Int) : Nat :=
  v.natAbs * 31 + 17

/-- Modelled from the spec: the external combined hash over the values of
the bucket columns ("hashing the values of `bucketColumnHandles`"). -/
def hashCells (vs : List Int) : Nat :=
  vs.foldl (fun acc v => acc * 1000003 + hashIntValue v) 0

/-- Modelled from the spec: the bucket number recomputed for one row —
the hash of the values of the conversion's `bucketColumnHandles`, modulo
`tableBucketCount`. -/
def bucketOf (conv : HiveBucketConversion) (r : HiveRow) : Int :=
  (hashCells (conv.bucketColumnHandles.map fun c => r.cellValue c.name) : Int) %
    conv.tableBucketCount

/-- Modelled from the spec: the bucket-conversion filter applied while
reading a split — a row is retained iff its recomputed bucket number equals
the split's `tableBucketNumber`. -/
def applyBucketFilter (conv : HiveBucketConversion) (tableBucketNumber : Int)
    (rows : List HiveRow) : List HiveRow :=
  rows.filter fun r => decide (bucketOf conv r = tableBucketNumber)

/-- A structured key-value document (the shape of `folly::dynamic` needed
for split persistence): strings, integers, null, arrays and objects. -/
inductive Dyn where
  | str (s : String)
  | intVal (n : Int)
  | nullVal
  | arr (elems : List Dyn)
  | obj (fields : List (String × Dyn))

/-- Value of a key in a document object. -/
def Dyn.getField : Dyn → String → Option Dyn
  | .obj fields, key => fields.lookup key
  | _, _ => none

/-- Encode an optional string (null for `nullopt`). -/
def encodeOptStr : Option String → Dyn
  | none => .nullVal
  | some s => .str s

/-- Encode an optional integer (null for `nullopt`). -/
def encodeOptInt : Option Int → Dyn
  | none => .nullVal
  | some n => .intVal n

/-- Encode a string-to-string map as a document object. -/
def encodeStrMap (m : List (String × String)) : Dyn :=
  .obj (m.map fun p => (p.1, Dyn.str p.2))

/-- Encode the partition-key map (null for missing values). -/
def encodePartitionKeys (m : List (String × Option String)) : Dyn :=
  .obj (m.map fun p => (p.1, encodeOptStr p.2))

/-- Type tag of a file format in the persisted form. -/
def encodeFileFormat : FileFormat → Dyn
  | .unknownFormat => .str "unknown"
  | .dwrf => .str "dwrf"
  | .text => .str "text"
  | .json => .str "json"
  | .parquet => .str "parquet"
  | .nimble => .str "nimble"
  | .orc => .str "orc"

/-- Encode a bucket conversion as a document object. -/
def encodeBucketConversion (c : HiveBucketConversion) : Dyn :=
  .obj
    [("tableBucketCount", .intVal c.tableBucketCount),
     ("partitionBucketCount", .intVal c.partitionBucketCount),
     ("bucketColumnHandles", .arr (c.bucketColumnHandles.map fun h => .str h.name))]

/-- Encode row-id properties as a document object. -/
def encodeRowIdProperties (r : RowIdProperties) : Dyn :=
  .obj
    [("metadataVersion", .intVal r.metadataVersion),
     ("partitionId", .intVal r.partitionId),
     ("tableGuid", .str r.tableGuid)]

/-- Encode an optional bucket conversion (null for `nullopt`). -/
def encodeOptBucketConversion : Option HiveBucketConversion → Dyn
  | none => .nullVal
  | some c => encodeBucketConversion c

/-- Encode optional row-id properties (null for `nullopt`). -/
def encodeOptRowIdProperties : Option RowIdProperties → Dyn
  | none => .nullVal
  | some r => encodeRowIdProperties r

/-- Modelled from the spec: `HiveConnectorSplit::serialize()` (its body
lives in `HiveConnectorSplit.cpp`, not in this source drop). The persisted
form is the structured key-value document of the design — the type tag
resolved by the global registry, the base `ConnectorSplit` fields
(`connectorId`, `splitWeight`) needed to rebuild the split, and the listed
fields `filePath, fileFormat, start, length, partitionKeys,
tableBucketNumber, bucketConversion, customSplitInfo, serdeParameters,
infoColumns, rowIdProperties`. `extraFileInfo` and `properties` are not
part of the persisted form. -/
def HiveConnectorSplit.serialize (s : HiveConnectorSplit) : Dyn :=
  .obj
    [("name", .str "HiveConnectorSplit"),
     ("connectorId", .str s.connectorId),
     ("splitWeight", .intVal s.splitWeight),
     ("filePath", .str s.filePath),
     ("fileFormat", encodeFileFormat s.fileFormat),
     ("start", .intVal (s.start : Int)),
     ("length", .intVal (s.length : Int)),
     ("partitionKeys", encodePartitionKeys s.partitionKeys),
     ("tableBucketNumber", encodeOptInt s.tableBucketNumber),
     ("bucketConversion", encodeOptBucketConversion s.bucketConversion),
     ("customSplitInfo", encodeStrMap s.customSplitInfo),
     ("serdeParameters", encodeStrMap s.serdeParameters),
     ("infoColumns", encodeStrMap s.infoColumns),
     ("rowIdProperties", encodeOptRowIdProperties s.rowIdProperties)]

/-- Decode a string value. -/
def decodeStr : Dyn → Option String
  | .str s => some s
  | _ => none

/-- Decode an integer value. -/
def decodeInt : Dyn → Option Int
  | .intVal n => some n
  | _ => none

/-- Decode an unsigned value. -/
def decodeNat : Dyn → Option Nat
  | .intVal n => some n.toNat
  | _ => none

/-- Decode an optional string (null decodes to `nullopt`). -/
def decodeOptStr : Dyn → Option (Option String)
  | .nullVal => some none
  | .str s => some (some s)
  | _ => none

/-- Decode an optional integer (null decodes to `nullopt`). -/
def decodeOptInt : Dyn → Option (Option Int)
  | .nullVal => some none
  | .intVal n => some (some n)
  | _ => none

/-- Decode the entries of a string-to-string map object. -/
def decodeStrPairs : List (String × Dyn) → Option (List (String × String))
  | [] => some []
  | (k, v) :: rest => do
    let s ← decodeStr v
    let tail ← decodeStrPairs rest
    some ((k, s) :: tail)

/-- Decode a string-to-string map. -/
def decodeStrMap : Dyn → Option (List (String × String))
  | .obj fields => decodeStrPairs fields
  | _ => none

/-- Decode the entries of the partition-key map object. -/
def decodePartitionPairs :
    List (String × Dyn) → Option (List (String × Option String))
  | [] => some []
  | (k, v) :: rest => do
    let s ← decodeOptStr v
    let tail ← decodePartitionPairs rest
    some ((k, s) :: tail)

/-- Decode the partition-key map. -/
def decodePartitionKeys : Dyn → Option (List (String × Option String))
  | .obj fields => decodePartitionPairs fields
  | _ => none

/-- Decode a file-format tag. -/
def decodeFileFormat : Dyn → Option FileFormat
  | .str "unknown" => some .unknownFormat
  | .str "dwrf" => some .dwrf
  | .str "text" => some .text
  | .str "json" => some .json
  | .str "parquet" => some .parquet
  | .str "nimble" => some .nimble
  | .str "orc" => some .orc
  | _ => none

/-- Decode a list of bucket-column handles from their encoded names. -/
def decodeColumnHandleList : List Dyn → Option (List HiveColumnHandle)
  | [] => some []
  | v :: rest => do
    let nm ← decodeStr v
    let tail ← decodeColumnHandleList rest
    some (HiveColumnHandle.mk nm :: tail)

/-- Decode a bucket conversion object. -/
def decodeBucketConversion (d : Dyn) : Option HiveBucketConversion := do
  let tbc ← d.getField "tableBucketCount" >>= decodeInt
  let pbc ← d.getField "partitionBucketCount" >>= decodeInt
  let cols ← d.getField "bucketColumnHandles" >>= fun v =>
    match v with
    | .arr elems => decodeColumnHandleList elems
    | _ => none
  some ⟨tbc, pbc, cols⟩

/-- Decode an optional bucket conversion (null decodes to `nullopt`). -/
def decodeOptBucketConversion : Dyn → Option (Option HiveBucketConversion)
  | .nullVal => some none
  | d => (decodeBucketConversion d).map some

/-- Decode a row-id properties object. -/
def decodeRowIdProperties (d : Dyn) : Option RowIdProperties := do
  let mv ← d.getField "metadataVersion" >>= decodeInt
  let pid ← d.getField "partitionId" >>= decodeInt
  let guid ← d.getField "tableGuid" >>= decodeStr
  some ⟨mv, pid, guid⟩

/-- Decode an optional row-id properties value (null decodes to
`nullopt`). -/
def decodeOptRowIdProperties : Dyn → Option (Option RowIdProperties)
  | .nullVal => some none
  | d => (decodeRowIdProperties d).map some

/-- Modelled from the spec: `HiveConnectorSplit::create(obj)` (its body
lives in `HiveConnectorSplit.cpp`, not in this source drop). Checks the
type tag and rebuilds the split from the persisted fields; the fields
absent from the persisted form (`extraFileInfo`, `properties`) take their
default values. -/
def HiveConnectorSplit.create (d : Dyn) : Option HiveConnectorSplit := do
  let tag ← d.getField "name" >>= decodeStr
  if tag = "HiveConnectorSplit" then
    let connectorId ← d.getField "connectorId" >>= decodeStr
    let splitWeight ← d.getField "splitWeight" >>= decodeInt
    let filePath ← d.getField "filePath" >>= decodeStr
    let fileFormat ← d.getField "fileFormat" >>= decodeFileFormat
    let start ← d.getField "start" >>= decodeNat
    let length ← d.getField "length" >>= decodeNat
    let partitionKeys ← d.getField "partitionKeys" >>= decodePartitionKeys
    let tableBucketNumber ← d.getField "tableBucketNumber" >>= decodeOptInt
    let bucketConversion ← d.getField "bucketConversion" >>= decodeOptBucketConversion
    let customSplitInfo ← d.getField "customSplitInfo" >>= decodeStrMap
    let serdeParameters ← d.getField "serdeParameters" >>= decodeStrMap
    let infoColumns ← d.getField "infoColumns" >>= decodeStrMap
    let rowIdProperties ← d.getField "rowIdProperties" >>= decodeOptRowIdProperties
    some
      { connectorId := connectorId
        splitWeight := splitWeight
        filePath := filePath
        fileFormat := fileFormat
        start := start
        length := length
        partitionKeys := partitionKeys
        tableBucketNumber := tableBucketNumber
        bucketConversion := bucketConversion
        customSplitInfo := customSplitInfo
        extraFileInfo := none
        serdeParameters := serdeParameters
        infoColumns := infoColumns
        properties := none
        rowIdProperties := rowIdProperties }
  else
    none

/-- A concrete data source over the `region` table at scale factor 1
(5 rows), as produced by the data-source constructor. -/
def dsRegionOne : TpchDataSource :=
  { tpchTable := .region
    scaleFactor := 1
    tpchTableRowCount := 5
    currentSplit := none
    splitOffset := 0
    splitEnd := 0
    completedRows := 0
    completedBytes := 0
    pool := 7 }

/-- `dsRegionOne` after being assigned the (over-long, clamped) split
`[1, 9)`. -/
def dsProducing : TpchDataSource :=
  dsRegionOne.addSplit ⟨"tpch", 1, 9⟩

/-- A concrete disjoint partition of the 5-row `region` row space into the
splits `[0, 2)` (drained with batch size 1) and `[2, 5)` (drained with
batch size 2). -/
def partsRegion : List (TpchConnectorSplit × Nat) :=
  [(⟨"tpch", 0, 2⟩, 1), (⟨"tpch", 2, 5⟩, 2)]

/-- A hive split with every field populated, including the two fields that
are not part of the persisted form. -/
def hiveFullSplit : HiveConnectorSplit :=
  { connectorId := "test-hive"
    splitWeight := 11
    filePath := "/data/part-0"
    fileFormat := .parquet
    start := 100
    length := 4096
    partitionKeys := [("ds", some "2024-01-01"), ("bad", none)]
    tableBucketNumber := some 5
    bucketConversion := some ⟨8, 4, [⟨"c0"⟩, ⟨"c1"⟩]⟩
    customSplitInfo := [("k0", "v0")]
    extraFileInfo := some "extra-info"
    serdeParameters := [("sep", "u0001")]
    infoColumns := [("file_size", "4196")]
    properties := some ⟨some 4196, some 1700000000⟩
    rowIdProperties := some ⟨2, 3, "guid-17"⟩ }

/-! ## Theorems -/

/-- C6: constructing a TPC-H table handle with scale factor `-1` fails with
a `ValidationError`, and for every scale factor `≥ 0` (including `0`)
construction succeeds and the handle stores that scale factor. -/
theorem tpchTableHandle_scaleFactor_check :
    mkTpchTableHandle "test-tpch" TpchTable.lineitem (-1) =
      .error (.validation "Tpch scale factor must be non-negative") ∧
    ∀ (cid : String) (t : TpchTable) (s : ℚ), 0 ≤ s →
      mkTpchTableHandle cid t s =
        .ok { connectorId := cid, table := t, scaleFactor := s } := by
  constructor
  · norm_num [mkTpchTableHandle]
  · intro cid t s hs
    simp [mkTpchTableHandle, hs]

/-- Witness for C6 at scale factor `0`. -/
theorem tpchTableHandle_scaleFactor_check_witness :
    (0 : ℚ) ≤ 0 ∧
      mkTpchTableHandle "test-tpch" TpchTable.nation 0 =
        .ok { connectorId := "test-tpch", table := TpchTable.nation,
              scaleFactor := 0 } :=
  ⟨le_refl 0,
    tpchTableHandle_scaleFactor_check.2 "test-tpch" TpchTable.nation 0
      (le_refl 0)⟩

/-- C7: `createDataSink` on the TPC-H connector fails with a not-supported
error for every input, and `addDynamicFilter` on the TPC-H data source
fails with a not-supported error for every column index and filter. -/
theorem tpchConnector_writePath_notSupported :
    (∀ (c : TpchConnector) (inputType : List String)
       (insertHandle : String) (ctx : ConnectorQueryCtx)
       (strategy : CommitStrategy),
       c.createDataSink inputType insertHandle ctx strategy =
         .error (.notSupported "TpchConnector does not support data sink.")) ∧
    (∀ (ds : TpchDataSource) (channel : Nat) (f : VeloxFilter),
       ds.addDynamicFilter channel f =
         .error
           (.notSupported "Dynamic filters not supported by TpchConnector.")) :=
  ⟨fun _ _ _ _ _ => rfl, fun _ _ _ => rfl⟩

/-- C8: `createDataSource` validates that the table handle belongs to the
TPC-H connector kind — a handle of another kind yields a type-mismatch
error, a TPC-H handle yields a data source bound to the context's memory
pool. -/
theorem tpchConnector_createDataSource_validates_handle :
    ∀ (c : TpchConnector) (outputType : List String)
      (th : ConnectorTableHandle)
      (cols : List (String × TpchColumnHandle)) (ctx : ConnectorQueryCtx),
      (∀ cid, th = .otherKind cid →
        c.createDataSource outputType th cols ctx =
          .error
            (.typeMismatch "TableHandle must be an instance of TpchTableHandle")) ∧
      (∀ h, th = .tpch h →
        ∃ ds, c.createDataSource outputType th cols ctx = .ok ds ∧
          ds.pool = ctx.memoryPool ∧ ds.tpchTable = h.table ∧
          ds.scaleFactor = h.scaleFactor) := by
  intro c outputType th cols ctx
  constructor
  · rintro cid rfl
    rfl
  · rintro h rfl
    exact ⟨_, rfl, rfl, rfl, rfl⟩

/-- Witness for C8: both the mismatching and the matching branch at
concrete inputs. -/
theorem tpchConnector_createDataSource_validates_handle_witness :
    (TpchConnector.mk "tpch0").createDataSource []
        (.otherKind "hive-table") [] ⟨3⟩ =
      .error
        (.typeMismatch "TableHandle must be an instance of TpchTableHandle") ∧
    ∃ ds, (TpchConnector.mk "tpch0").createDataSource []
        (.tpch ⟨"tpch0", TpchTable.nation, 1⟩) [] ⟨3⟩ = .ok ds ∧
      ds.pool = 3 ∧ ds.tpchTable = TpchTable.nation ∧ ds.scaleFactor = 1 :=
  ⟨(tpchConnector_createDataSource_validates_handle _ _ _ _ _).1
      "hive-table" rfl,
    (tpchConnector_createDataSource_validates_handle _ _ _ _ _).2
      ⟨"tpch0", TpchTable.nation, 1⟩ rfl⟩

/-- C10: a hive split constructed from only a connector id, file path and
file format covers the whole file (`start = 0`,
`length = 2^64 - 1`), has no partition keys, no bucket number and
scheduling weight `0`. -/
theorem hiveConnectorSplit_constructor_defaults :
    ∀ (cid filePath : String) (fmt : FileFormat),
      (mkHiveConnectorSplitDefaults cid filePath fmt).start = 0 ∧
      (mkHiveConnectorSplitDefaults cid filePath fmt).length = 2 ^ 64 - 1 ∧
      (mkHiveConnectorSplitDefaults cid filePath fmt).partitionKeys = [] ∧
      (mkHiveConnectorSplitDefaults cid filePath fmt).tableBucketNumber = none ∧
      (mkHiveConnectorSplitDefaults cid filePath fmt).splitWeight = 0 ∧
      (mkHiveConnectorSplitDefaults cid filePath fmt).connectorId = cid ∧
      (mkHiveConnectorSplitDefaults cid filePath fmt).filePath = filePath ∧
      (mkHiveConnectorSplitDefaults cid filePath fmt).fileFormat = fmt :=
  fun _ _ _ => ⟨rfl, rfl, rfl, rfl, rfl, rfl, rfl, rfl⟩

/-- C2: `totalRowCount` is a pure function of the table and scale factor —
equal arguments give equal values — the data-source constructor stores it
once, and neither `addSplit` nor `next` recomputes or changes it. -/
theorem tpch_totalRowCount_pure_and_cached :
    (∀ (t t' : TpchTable) (s s' : ℚ), t = t' → s = s' →
      totalRowCount t s = totalRowCount t' s') ∧
    (∀ (h : TpchTableHandle) (pool : Nat) (ds : TpchDataSource),
      mkTpchDataSource (.tpch h) pool = .ok ds →
      ds.tpchTableRowCount = totalRowCount h.table h.scaleFactor) ∧
    (∀ (ds : TpchDataSource) (sp : TpchConnectorSplit),
      (ds.addSplit sp).tpchTableRowCount = ds.tpchTableRowCount) ∧
    (∀ (ds : TpchDataSource) (n : Nat),
      ((ds.next n).2).tpchTableRowCount = ds.tpchTableRowCount) := by
  refine ⟨?_, ?_, ?_, ?_⟩
  · rintro t _ s _ rfl rfl
    rfl
  · intro h pool ds hds
    simp only [mkTpchDataSource, Except.ok.injEq] at hds
    subst hds
    rfl
  · intro ds sp
    rfl
  · intro ds n
    unfold TpchDataSource.next
    split <;> rfl

/-- Witness for C2 on the `region` table at scale factor 1. -/
theorem tpch_totalRowCount_pure_and_cached_witness :
    totalRowCount TpchTable.region 1 = totalRowCount TpchTable.region 1 ∧
    mkTpchDataSource (.tpch ⟨"tpch", TpchTable.region, 1⟩) 7 =
      .ok dsRegionOne ∧
    dsRegionOne.tpchTableRowCount = totalRowCount TpchTable.region 1 :=
  ⟨tpch_totalRowCount_pure_and_cached.1 TpchTable.region TpchTable.region 1 1
      rfl rfl,
    rfl,
    tpch_totalRowCount_pure_and_cached.2.1 ⟨"tpch", TpchTable.region, 1⟩ 7
      dsRegionOne rfl⟩

/-- C4: the bucket-conversion filter keeps a row iff the hash of the
values of the conversion's bucket columns, taken modulo
`tableBucketCount`, equals the split's `tableBucketNumber`; in particular
with `tableBucketCount = 8` a row passes iff that hash mod 8 equals the
bucket number. -/
theorem hiveBucketFilter_retains_iff :
    (∀ (conv : HiveBucketConversion) (tbn : Int) (rows : List HiveRow)
       (r : HiveRow),
       r ∈ applyBucketFilter conv tbn rows ↔
         r ∈ rows ∧
           (hashCells (conv.bucketColumnHandles.map fun c =>
               r.cellValue c.name) : Int) % conv.tableBucketCount = tbn) ∧
    (∀ (cols : List HiveColumnHandle) (rows : List HiveRow) (r : HiveRow),
       r ∈ applyBucketFilter ⟨8, 4, cols⟩ 5 rows ↔
         r ∈ rows ∧
           (hashCells (cols.map fun c => r.cellValue c.name) : Int) % 8 = 5) := by
  have base : ∀ (conv : HiveBucketConversion) (tbn : Int)
      (rows : List HiveRow) (r : HiveRow),
      r ∈ applyBucketFilter conv tbn rows ↔
        r ∈ rows ∧
          (hashCells (conv.bucketColumnHandles.map fun c =>
              r.cellValue c.name) : Int) % conv.tableBucketCount = tbn := by
    intro conv tbn rows r
    simp [applyBucketFilter, List.mem_filter, bucketOf]
  exact ⟨base, fun cols rows r => base ⟨8, 4, cols⟩ 5 rows r⟩

/-- Witness for C4 (the statement is hypothesis-free; this instantiates it
at a concrete conversion, bucket number, row list and row). -/
theorem hiveBucketFilter_retains_iff_witness :
    HiveRow.mk [("c0", 3)] ∈
        applyBucketFilter ⟨8, 4, [⟨"c0"⟩]⟩ 5 [⟨[("c0", 3)]⟩] ↔
      HiveRow.mk [("c0", 3)] ∈ ([⟨[("c0", 3)]⟩] : List HiveRow) ∧
        (hashCells ([(⟨"c0"⟩ : HiveColumnHandle)].map fun c =>
            (HiveRow.mk [("c0", 3)]).cellValue c.name) : Int) % 8 = 5 :=
  hiveBucketFilter_retains_iff.2 [⟨"c0"⟩] [⟨[("c0", 3)]⟩] ⟨[("c0", 3)]⟩

/-- C9 fails as stated: the bucket-conversion invariant is not established
by the code — `HiveBucketConversion` and the split constructor perform no
validation, so a populated conversion violating every clause of the
invariant is representable. -/
theorem hiveBucketConversion_invariant_not_enforced :
    hiveBadBucketSplit.bucketConversion = some ⟨1, 2, []⟩ ∧
      ¬ bucketConversionInvariant hiveBadBucketSplit := by
  refine ⟨rfl, fun hinv => ?_⟩
  have h := hinv ⟨1, 2, []⟩ rfl
  have h21 : (2 : Int) ≤ 1 := h.1.2.1
  norm_num at h21

/-- C9 (amended): the invariant is a caller obligation, not checked by the
code; the constructor itself never populates `bucketConversion`, so every
freshly constructed split satisfies the invariant vacuously. -/
theorem hiveConnectorSplit_fresh_bucketConversion_invariant :
    ∀ (cid filePath : String) (fmt : FileFormat) (start length : Nat)
      (partitionKeys : List (String × Option String))
      (tableBucketNumber : Option Int)
      (customSplitInfo : List (String × String))
      (extraFileInfo : Option String)
      (serdeParameters : List (String × String)) (splitWeight : Int)
      (infoColumns : List (String × String))
      (properties : Option FileProperties)
      (rowIdProperties : Option RowIdProperties),
      (mkHiveConnectorSplit cid filePath fmt start length partitionKeys
          tableBucketNumber customSplitInfo extraFileInfo serdeParameters
          splitWeight infoColumns properties rowIdProperties).bucketConversion =
        none ∧
      bucketConversionInvariant
        (mkHiveConnectorSplit cid filePath fmt start length partitionKeys
          tableBucketNumber customSplitInfo extraFileInfo serdeParameters
          splitWeight infoColumns properties rowIdProperties) := by
  intro cid filePath fmt start length partitionKeys tableBucketNumber
    customSplitInfo extraFileInfo serdeParameters splitWeight infoColumns
    properties rowIdProperties
  refine ⟨rfl, fun conv hconv => ?_⟩
  simp [mkHiveConnectorSplit] at hconv

/-- Witness for the amended C9 at a concrete constructor call. -/
theorem hiveConnectorSplit_fresh_bucketConversion_invariant_witness :
    (mkHiveConnectorSplit "test-hive" "/data/f1" .orc 0 10 [] (some 3) []
        none [] 1 [] none none).bucketConversion = none ∧
      bucketConversionInvariant
        (mkHiveConnectorSplit "test-hive" "/data/f1" .orc 0 10 [] (some 3)
          [] none [] 1 [] none none) :=
  hiveConnectorSplit_fresh_bucketConversion_invariant "test-hive" "/data/f1"
    .orc 0 10 [] (some 3) [] none [] 1 [] none none

/-- Byte accounting for a batch produced as the image of a row generator:
16 bytes per row in the fixed-width model. -/
theorem sum_map_comp_rowBytes (f : Nat → TpchRow) (l : List Nat) :
    (l.map (rowBytes ∘ f)).sum = l.length * 16 := by
  induction l with
  | nil => rfl
  | cons a l ih =>
    simp [rowBytes, Function.comp, ih]
    ring

/-- C3: while the split range is not consumed, `next n` returns a batch of
exactly `min n (splitEnd - cursor)` rows — the generator's rows for
`[cursor, cursor + k)` — advances the cursor by that amount and adds it to
`completedRows` (and the batch bytes to `completedBytes`); once the range
is consumed, `next` returns the empty result that signals the need for the
next split without changing the state. -/
theorem tpchDataSource_next_batches (ds : TpchDataSource) (n : Nat) :
    (ds.splitOffset < ds.splitEnd →
      ∃ rows, (ds.next n).1 = some rows ∧
        rows.length = min n (ds.splitEnd - ds.splitOffset) ∧
        rows = scanRange ds.tpchTable ds.scaleFactor ds.splitOffset
          (ds.splitOffset + min n (ds.splitEnd - ds.splitOffset)) ∧
        (ds.next n).2.splitOffset =
          ds.splitOffset + min n (ds.splitEnd - ds.splitOffset) ∧
        (ds.next n).2.splitEnd = ds.splitEnd ∧
        (ds.next n).2.completedRows =
          ds.completedRows + min n (ds.splitEnd - ds.splitOffset) ∧
        (ds.next n).2.completedBytes =
          ds.completedBytes + 16 * min n (ds.splitEnd - ds.splitOffset)) ∧
    (ds.splitEnd ≤ ds.splitOffset →
      (ds.next n).1 = none ∧ (ds.next n).2 = ds) := by
  constructor
  · intro hlt
    refine ⟨(List.range' ds.splitOffset (min n (ds.splitEnd - ds.splitOffset))).map
        (genRow ds.tpchTable ds.scaleFactor), ?_, ?_, ?_, ?_, ?_, ?_, ?_⟩
    · simp [TpchDataSource.next, if_pos hlt]
    · simp [List.length_range']
    · simp [scanRange]
    · simp [TpchDataSource.next, if_pos hlt]
    · simp [TpchDataSource.next, if_pos hlt]
    · simp [TpchDataSource.next, if_pos hlt]
    · simp [TpchDataSource.next, if_pos hlt, Nat.mul_comm]
      rw [sum_map_comp_rowBytes]
      simp [List.length_range']
  · intro hle
    have hnot : ¬ ds.splitOffset < ds.splitEnd := not_lt.mpr hle
    constructor
    · simp [TpchDataSource.next, if_neg hnot]
    · simp [TpchDataSource.next, if_neg hnot]

/-- Witness for C3: a producing state (`dsProducing`, range `[1, 5)`,
batch size 2) and an exhausted state (`dsRegionOne`, empty range). -/
theorem tpchDataSource_next_batches_witness :
    (dsProducing.splitOffset < dsProducing.splitEnd ∧
      ∃ rows, (dsProducing.next 2).1 = some rows ∧
        rows.length = min 2 (dsProducing.splitEnd - dsProducing.splitOffset) ∧
        rows = scanRange dsProducing.tpchTable dsProducing.scaleFactor
          dsProducing.splitOffset
          (dsProducing.splitOffset +
            min 2 (dsProducing.splitEnd - dsProducing.splitOffset)) ∧
        (dsProducing.next 2).2.splitOffset =
          dsProducing.splitOffset +
            min 2 (dsProducing.splitEnd - dsProducing.splitOffset) ∧
        (dsProducing.next 2).2.splitEnd = dsProducing.splitEnd ∧
        (dsProducing.next 2).2.completedRows =
          dsProducing.completedRows +
            min 2 (dsProducing.splitEnd - dsProducing.splitOffset) ∧
        (dsProducing.next 2).2.completedBytes =
          dsProducing.completedBytes +
            16 * min 2 (dsProducing.splitEnd - dsProducing.splitOffset)) ∧
    (dsRegionOne.splitEnd ≤ dsRegionOne.splitOffset ∧
      (dsRegionOne.next 3).1 = none ∧ (dsRegionOne.next 3).2 = dsRegionOne) :=
  ⟨⟨by decide, (tpchDataSource_next_batches dsProducing 2).1 (by decide)⟩,
    ⟨by decide, (tpchDataSource_next_batches dsRegionOne 3).2 (by decide)⟩⟩

/-- Draining a split with any positive batch size (and enough pulls)
produces exactly the generator's rows for the cursor range, in order:
batch boundaries do not change what is produced. -/
theorem drain_eq_scanRange (n : Nat) (hn : 0 < n) :
    ∀ (fuel : Nat) (ds : TpchDataSource),
      ds.splitEnd - ds.splitOffset ≤ fuel →
      drain n fuel ds =
        scanRange ds.tpchTable ds.scaleFactor ds.splitOffset ds.splitEnd := by
  intro fuel
  induction fuel with
  | zero =>
    intro ds h
    have h0 : ds.splitEnd - ds.splitOffset = 0 := Nat.le_zero.mp h
    simp [drain, scanRange, h0]
  | succ fuel ih =>
    intro ds h
    by_cases hlt : ds.splitOffset < ds.splitEnd
    · have hk1 : 1 ≤ min n (ds.splitEnd - ds.splitOffset) := by omega
      have hstep : drain n (fuel + 1) ds =
          (List.range' ds.splitOffset (min n (ds.splitEnd - ds.splitOffset))).map
              (genRow ds.tpchTable ds.scaleFactor) ++
            drain n fuel (ds.next n).2 := by
        simp [drain, TpchDataSource.next, if_pos hlt]
      have hnext2 : (ds.next n).2 =
          { ds with
              splitOffset := ds.splitOffset + min n (ds.splitEnd - ds.splitOffset)
              completedRows :=
                ds.completedRows + min n (ds.splitEnd - ds.splitOffset)
              completedBytes := ds.completedBytes +
                (((List.range' ds.splitOffset
                      (min n (ds.splitEnd - ds.splitOffset))).map
                    (genRow ds.tpchTable ds.scaleFactor)).map rowBytes).sum } := by
        simp [TpchDataSource.next, if_pos hlt]
      rw [hstep, hnext2, ih]
      · show (List.range' ds.splitOffset
            (min n (ds.splitEnd - ds.splitOffset))).map
              (genRow ds.tpchTable ds.scaleFactor) ++
            (List.range'
              (ds.splitOffset + min n (ds.splitEnd - ds.splitOffset))
              (ds.splitEnd -
                (ds.splitOffset + min n (ds.splitEnd - ds.splitOffset)))).map
              (genRow ds.tpchTable ds.scaleFactor) =
            scanRange ds.tpchTable ds.scaleFactor ds.splitOffset ds.splitEnd
        rw [← List.map_append]
        unfold scanRange
        congr 1
        have harr := List.range'_append ds.splitOffset
          (min n (ds.splitEnd - ds.splitOffset))
          (ds.splitEnd - (ds.splitOffset + min n (ds.splitEnd - ds.splitOffset)))
          1
        simp only [one_mul] at harr
        rw [harr]
        congr 1
        omega
      · show ds.splitEnd -
            (ds.splitOffset + min n (ds.splitEnd - ds.splitOffset)) ≤ fuel
        omega
    · have h0 : ds.splitEnd - ds.splitOffset = 0 := by omega
      simp [drain, TpchDataSource.next, if_neg hlt, scanRange, h0]

/-- Assigning an in-range split and draining it produces exactly the rows
of the split's row sub-range. -/
theorem splitScanRows_eq_scanRange (ds0 : TpchDataSource) (n : Nat)
    (hn : 0 < n) (sp : TpchConnectorSplit)
    (h1 : sp.splitOffset ≤ sp.splitEnd)
    (h2 : sp.splitEnd ≤ ds0.tpchTableRowCount) :
    splitScanRows ds0 n sp =
      scanRange ds0.tpchTable ds0.scaleFactor sp.splitOffset sp.splitEnd := by
  have e1 : (ds0.addSplit sp).splitOffset = sp.splitOffset := by
    simp only [TpchDataSource.addSplit]
    omega
  have e2 : (ds0.addSplit sp).splitEnd = sp.splitEnd := by
    simp only [TpchDataSource.addSplit]
    omega
  unfold splitScanRows
  rw [drain_eq_scanRange n hn _ _ (le_refl _), e1, e2]
  rfl

/-- C1: partition consistency — for a data source built over table `T` at
scale `s`, any family of disjoint row sub-ranges covering
`[0, totalRowCount(T, s))`, each scanned as its own split with its own
positive batch size, produces as a multiset exactly the rows of one
unsplit scan of `[0, totalRowCount(T, s))`. -/
theorem tpch_partition_consistency
    (h : TpchTableHandle) (pool : Nat) (ds0 : TpchDataSource)
    (hds : mkTpchDataSource (.tpch h) pool = .ok ds0)
    (parts : List (TpchConnectorSplit × Nat))
    (hparts : ∀ p ∈ parts, p.1.splitOffset ≤ p.1.splitEnd ∧
      p.1.splitEnd ≤ totalRowCount h.table h.scaleFactor ∧ 0 < p.2)
    (hcover : (((parts.map fun p =>
          List.range' p.1.splitOffset (p.1.splitEnd - p.1.splitOffset)).flatten :
        List Nat) : Multiset Nat) =
      ((List.range (totalRowCount h.table h.scaleFactor) : List Nat) :
        Multiset Nat)) :
    (((parts.map fun p => splitScanRows ds0 p.2 p.1).flatten :
        List TpchRow) : Multiset TpchRow) =
      ((scanRange h.table h.scaleFactor 0 (totalRowCount h.table h.scaleFactor) :
        List TpchRow) : Multiset TpchRow) := by
  simp only [mkTpchDataSource, Except.ok.injEq] at hds
  subst hds
  have hmap : (parts.map fun p => splitScanRows
      { tpchTable := h.table
        scaleFactor := h.scaleFactor
        tpchTableRowCount := totalRowCount h.table h.scaleFactor
        currentSplit := none
        splitOffset := 0
        splitEnd := 0
        completedRows := 0
        completedBytes := 0
        pool := pool } p.2 p.1) =
      parts.map fun p =>
        (List.range' p.1.splitOffset (p.1.splitEnd - p.1.splitOffset)).map
          (genRow h.table h.scaleFactor) := by
    apply List.map_congr_left
    intro p hp
    rw [splitScanRows_eq_scanRange _ _ (hparts p hp).2.2 _ (hparts p hp).1
      (hparts p hp).2.1]
    rfl
  rw [hmap]
  have hflat : (parts.map fun p =>
      (List.range' p.1.splitOffset (p.1.splitEnd - p.1.splitOffset)).map
        (genRow h.table h.scaleFactor)).flatten =
      ((parts.map fun p =>
        List.range' p.1.splitOffset (p.1.splitEnd - p.1.splitOffset)).flatten).map
        (genRow h.table h.scaleFactor) := by
    rw [List.map_flatten, List.map_map]
    rfl
  rw [hflat]
  rw [← Multiset.map_coe, hcover, Multiset.map_coe]
  simp [scanRange, List.range_eq_range']

/-- Witness for C1: the `region` table (5 rows) partitioned into the
splits `[0, 2)` and `[2, 5)` with batch sizes 1 and 2. -/
theorem tpch_partition_consistency_witness :
    mkTpchDataSource (.tpch ⟨"tpch", TpchTable.region, 1⟩) 7 =
      .ok dsRegionOne ∧
    (∀ p ∈ partsRegion, p.1.splitOffset ≤ p.1.splitEnd ∧
      p.1.splitEnd ≤ totalRowCount TpchTable.region 1 ∧ 0 < p.2) ∧
    ((((partsRegion.map fun p =>
          List.range' p.1.splitOffset (p.1.splitEnd - p.1.splitOffset)).flatten :
        List Nat) : Multiset Nat) =
      ((List.range (totalRowCount TpchTable.region 1) : List Nat) :
        Multiset Nat)) ∧
    (((partsRegion.map fun p => splitScanRows dsRegionOne p.2 p.1).flatten :
        List TpchRow) : Multiset TpchRow) =
      ((scanRange TpchTable.region 1 0 (totalRowCount TpchTable.region 1) :
        List TpchRow) : Multiset TpchRow) :=
  ⟨rfl, by decide, by decide,
    tpch_partition_consistency ⟨"tpch", TpchTable.region, 1⟩ 7 dsRegionOne rfl
      partsRegion (by decide) (by decide)⟩

/-- Decoding inverts the file-format tag. -/
theorem decodeFileFormat_encode (f : FileFormat) :
    decodeFileFormat (encodeFileFormat f) = some f := by
  cases f <;> rfl

/-- Decoding inverts the optional-string encoding. -/
theorem decodeOptStr_encode (o : Option String) :
    decodeOptStr (encodeOptStr o) = some o := by
  cases o <;> rfl

/-- Decoding inverts the optional-integer encoding. -/
theorem decodeOptInt_encode (o : Option Int) :
    decodeOptInt (encodeOptInt o) = some o := by
  cases o <;> rfl

/-- Decoding inverts the string-map entry encoding. -/
theorem decodeStrPairs_encode (m : List (String × String)) :
    decodeStrPairs (m.map fun p => (p.1, Dyn.str p.2)) = some m := by
  induction m with
  | nil => rfl
  | cons p m ih =>
    obtain ⟨k, v⟩ := p
    simp [decodeStrPairs, decodeStr, ih]

/-- Decoding inverts the string-map encoding. -/
theorem decodeStrMap_encode (m : List (String × String)) :
    decodeStrMap (encodeStrMap m) = some m := by
  simp [encodeStrMap, decodeStrMap, decodeStrPairs_encode]

/-- Decoding inverts the partition-key entry encoding. -/
theorem decodePartitionPairs_encode (m : List (String × Option String)) :
    decodePartitionPairs (m.map fun p => (p.1, encodeOptStr p.2)) = some m := by
  induction m with
  | nil => rfl
  | cons p m ih =>
    obtain ⟨k, v⟩ := p
    simp [decodePartitionPairs, decodeOptStr_encode, ih]

/-- Decoding inverts the partition-key map encoding. -/
theorem decodePartitionKeys_encode (m : List (String × Option String)) :
    decodePartitionKeys (encodePartitionKeys m) = some m := by
  simp [encodePartitionKeys, decodePartitionKeys, decodePartitionPairs_encode]

/-- Decoding inverts the bucket-column handle list encoding. -/
theorem decodeColumnHandleList_encode (cols : List HiveColumnHandle) :
    decodeColumnHandleList (cols.map fun h => Dyn.str h.name) = some cols := by
  induction cols with
  | nil => rfl
  | cons c cols ih =>
    obtain ⟨nm⟩ := c
    simp [decodeColumnHandleList, decodeStr, ih]

/-- Decoding inverts the bucket-conversion encoding. -/
theorem decodeBucketConversion_encode (c : HiveBucketConversion) :
    decodeBucketConversion (encodeBucketConversion c) = some c := by
  obtain ⟨tbc, pbc, cols⟩ := c
  simp [encodeBucketConversion, decodeBucketConversion, Dyn.getField,
    List.lookup, decodeInt, decodeColumnHandleList_encode]

/-- Decoding inverts the optional bucket-conversion encoding. -/
theorem decodeOptBucketConversion_encode (o : Option HiveBucketConversion) :
    decodeOptBucketConversion (encodeOptBucketConversion o) = some o := by
  cases o with
  | none => rfl
  | some c =>
    obtain ⟨tbc, pbc, cols⟩ := c
    simp [encodeOptBucketConversion, encodeBucketConversion,
      decodeOptBucketConversion, decodeBucketConversion, Dyn.getField,
      List.lookup, decodeInt, decodeColumnHandleList_encode]

/-- Decoding inverts the row-id properties encoding. -/
theorem decodeRowIdProperties_encode (r : RowIdProperties) :
    decodeRowIdProperties (encodeRowIdProperties r) = some r := by
  obtain ⟨mv, pid, guid⟩ := r
  simp [encodeRowIdProperties, decodeRowIdProperties, Dyn.getField,
    List.lookup, decodeInt, decodeStr]

/-- Decoding inverts the optional row-id properties encoding. -/
theorem decodeOptRowIdProperties_encode (o : Option RowIdProperties) :
    decodeOptRowIdProperties (encodeOptRowIdProperties o) = some o := by
  cases o with
  | none => rfl
  | some r =>
    obtain ⟨mv, pid, guid⟩ := r
    simp [encodeOptRowIdProperties, encodeRowIdProperties,
      decodeOptRowIdProperties, decodeRowIdProperties, Dyn.getField,
      List.lookup, decodeInt, decodeStr]

/-- C5 fails as stated: serializing a fully populated split and
deserializing does not return a field-for-field equal object — the fields
outside the persisted form (`extraFileInfo`, `properties`) are not
restored. -/
theorem hiveConnectorSplit_serde_not_lossless :
    HiveConnectorSplit.create hiveFullSplit.serialize ≠ some hiveFullSplit := by
  decide

/-- C5 (amended): serialize-then-create restores every persisted field —
all fields except `extraFileInfo` and `properties`, which are absent from
the persisted form and come back as their default `nullopt`. -/
theorem hiveConnectorSplit_serde_roundTrip_persisted (s : HiveConnectorSplit) :
    HiveConnectorSplit.create s.serialize =
      some { s with extraFileInfo := none, properties := none } := by
  obtain ⟨cid, w, fp, ff, st, len, pk, tbn, bc, csi, efi, sdp, ic, props, rip⟩ := s
  simp [HiveConnectorSplit.serialize, HiveConnectorSplit.create, Dyn.getField,
    List.lookup, decodeStr, decodeInt, decodeNat, decodeFileFormat_encode,
    decodePartitionKeys_encode, decodeOptInt_encode,
    decodeOptBucketConversion_encode, decodeStrMap_encode,
    decodeOptRowIdProperties_encode]

/-- Witness for the amended C5 at a concrete split. -/
theorem hiveConnectorSplit_serde_roundTrip_persisted_witness :
    HiveConnectorSplit.create
        (mkHiveConnectorSplitDefaults "test-hive" "/data/f2" .dwrf).serialize =
      some { mkHiveConnectorSplitDefaults "test-hive" "/data/f2" .dwrf with
              extraFileInfo := none, properties := none } :=
  hiveConnectorSplit_serde_roundTrip_persisted
    (mkHiveConnectorSplitDefaults "test-hive" "/data/f2" .dwrf)

end Velox
